import Mathlib

/-!
Verification of the salary-negotiation advisor (`src/main.py`, with
`src/main2.py` an earlier, partially superseded revision of the same app).

Shallow embedding conventions:
* Python floats are modelled as rationals (`ℚ`); all the arithmetic the
  claims are about (ratios, clamps, linear interpolation) is exact in `ℚ`.
* Python `raise` is modelled by `Except`: each `raise` site becomes an
  explicit error constructor, checked in the source order.
* `math.log10` is a transcendental primitive; it is carried as an
  uninterpreted parameter `log10 : ℚ → ℚ` — no claim depends on its values.
* Years of tenure enter only through `(1 + g) ** years`; they are modelled
  as a natural-number exponent (the UI offers half-year steps, but integer
  exponents suffice for every claim about which growth rate is used).
* `math.isfinite` is identically true on `ℚ`; the `decision` branch that
  needs it is noted where it is modelled.
-/

deriving instance DecidableEq for Except

namespace SalaryApp

/-- Result record of `compute_rubinstein_equilibrium` (src/main.py:452-482). -/
structure RubinsteinResult where
  pie : ℚ
  share_worker : ℚ
  share_firm : ℚ
  salary_worker : ℚ
  surplus_firm : ℚ
  deriving Repr, DecidableEq

/-- Error sites of `compute_rubinstein_equilibrium`, one constructor per
`raise` statement, in source order. -/
inductive RubinsteinError where
  /-- "연봉은 0보다 커야 합니다." (salaries must be positive) -/
  | nonPositiveSalary
  /-- "회사 최대 지불 의사가 최소 수용 연봉보다 커야 합니다." (E must exceed B) -/
  | ceilingNotAboveFloor
  /-- "할인 계수 δ는 0과 1 사이의 값이어야 합니다." (δ must lie in (0,1)) -/
  | deltaOutOfRange
  deriving Repr, DecidableEq

/-- `compute_rubinstein_equilibrium` (src/main.py:452-482):
Rubinstein alternating-offer equilibrium for the salary pie `[B, E]`. -/
def compute_rubinstein_equilibrium (min_salary max_salary delta_worker delta_firm : ℚ) :
    Except RubinsteinError RubinsteinResult :=
  if min_salary ≤ 0 ∨ max_salary ≤ 0 then .error .nonPositiveSalary
  else if max_salary ≤ min_salary then .error .ceilingNotAboveFloor
  else if ¬ (0 < delta_worker ∧ delta_worker < 1) ∨ ¬ (0 < delta_firm ∧ delta_firm < 1) then
    .error .deltaOutOfRange
  else
    let pie := max_salary - min_salary
    let share_worker := (1 - delta_firm) / (1 - delta_worker * delta_firm)
    let share_worker := max 0 (min 1 share_worker)
    let salary_worker := min_salary + share_worker * pie
    let share_firm := 1 - share_worker
    let surplus_firm := max_salary - salary_worker
    .ok ⟨pie, share_worker, share_firm, salary_worker, surplus_firm⟩

/-- Error sites of `compute_spe_from_target`, one constructor per `raise`
statement, in source order. -/
inductive SpeError where
  /-- "연봉은 0보다 커야 합니다." (S_target, E_max must be positive) -/
  | nonPositiveSalary
  /-- "할인율 δ_E, δ_R은 0과 1 사이여야 합니다." -/
  | deltaOutOfRange
  /-- "할인율 조합이 v_W ≈ 1이 되어, B를 정의하기 어렵습니다." (|1 − v_W| < 1e-9) -/
  | shareNearOne
  /-- "이 할인율과 최대 연봉 조합으로는 ..." (recovered B ≥ S_target) -/
  | floorNotBelowTarget
  /-- "희망 최종 연봉 S*는 회사 최대 연봉 E보다 클 수 없습니다." (S_target > E_max) -/
  | targetAboveCeiling
  /-- "역산된 최소 수용 연봉 B가 0 이하입니다. ..." (recovered B ≤ 0) -/
  | floorNotPositive
  deriving Repr, DecidableEq

/-- Result record of `compute_spe_from_target` (src/main.py:965-1023). -/
structure SpeResult where
  B : ℚ
  E : ℚ
  S_target : ℚ
  delta_worker : ℚ
  delta_firm : ℚ
  share_worker : ℚ
  share_firm : ℚ
  worker_surplus : ℚ
  firm_surplus : ℚ
  initial_offer : ℚ
  deriving Repr, DecidableEq

/-- `compute_spe_from_target` (src/main.py:965-1023): inverse Rubinstein
solve — given the desired final salary `S_target` and ceiling `E_max`,
recover the floor `B` with `B = (S_target − v_W·E_max) / (1 − v_W)`. -/
def compute_spe_from_target (S_target E_max delta_worker delta_firm : ℚ) :
    Except SpeError SpeResult :=
  if S_target ≤ 0 ∨ E_max ≤ 0 then .error .nonPositiveSalary
  else if ¬ (0 < delta_worker ∧ delta_worker < 1 ∧ 0 < delta_firm ∧ delta_firm < 1) then
    .error .deltaOutOfRange
  else
    let v_W := (1 - delta_firm) / (1 - delta_worker * delta_firm)
    let v_W := max 0 (min 1 v_W)
    let denom := 1 - v_W
    if |denom| < 1 / 1000000000 then .error .shareNearOne
    else
      let B := (S_target - v_W * E_max) / denom
      if B ≥ S_target then .error .floorNotBelowTarget
      else if S_target > E_max then .error .targetAboveCeiling
      else if B ≤ 0 then .error .floorNotPositive
      else
        let pie := E_max - B
        let share_worker := (S_target - B) / pie
        .ok ⟨B, E_max, S_target, delta_worker, delta_firm, share_worker, 1 - share_worker,
          S_target - B, E_max - S_target, S_target⟩

/-! ## Page-5 turn-based bargaining simulator (src/main.py:737-947) -/

/-- Actor tag; the source uses the duck-typed strings "employee"/"employer"
(`Actor = Literal["employee", "employer"]`, src/main.py:1313). -/
inductive Actor where
  | employee
  | employer
  deriving Repr, DecidableEq

/-- `neg_state["status"]` values: "ongoing" / "success" / "failed". -/
inductive NegStatus where
  | ongoing
  | success
  | failed
  deriving Repr, DecidableEq

/-- The page-5 `neg_state` session dict (src/main.py:816-834), field for
field in source order. -/
structure Neg5State where
  B : ℚ
  E : ℚ
  delta_E : ℚ
  delta_R : ℚ
  S_star : ℚ
  share_E : ℚ
  share_R : ℚ
  max_rounds : ℤ
  first_mover : Actor
  current_round : ℤ
  turn : Actor
  status : NegStatus
  last_employee_offer : Option ℚ
  last_employer_offer : Option ℚ
  final_salary : Option ℚ
  deriving Repr, DecidableEq

/-- `compute_rubinstein_salary` (src/main.py:759-772): returns
`(S_star, v_W, 1 − v_W)`; raises when a discount factor leaves `(0,1)`. -/
def compute_rubinstein_salary (B E delta_E delta_R : ℚ) : Except String (ℚ × ℚ × ℚ) :=
  if ¬ (0 < delta_E ∧ delta_E < 1 ∧ 0 < delta_R ∧ delta_R < 1) then
    .error "할인율은 0과 1 사이여야 합니다."
  else
    let pie := E - B
    let v_W := (1 - delta_R) / (1 - delta_E * delta_R)
    let v_W := max 0 (min 1 v_W)
    .ok (B + v_W * pie, v_W, 1 - v_W)

/-- `compute_employer_offer` (src/main.py:775-788): first firm move is the
(clamped) equilibrium salary; afterwards the firm splits the gap between the
last worker offer and the equilibrium, clamped to `[B, E]`. -/
def compute_employer_offer (B E S_star : ℚ) (last_employee_offer : Option ℚ) : ℚ :=
  let S_star_clamped := max B (min E S_star)
  match last_employee_offer with
  | none => S_star_clamped
  | some l => max B (min E (l + (1 / 2) * (S_star_clamped - l)))

/-- Session construction on form submit (src/main.py:810-835): rejects
`B ≥ E`, computes the Rubinstein equilibrium once, seeds round 1 with the
chosen first mover. -/
def mkNeg5Session (B E delta_E delta_R : ℚ) (max_rounds : ℤ) (first_mover : Actor) :
    Except String Neg5State :=
  if B ≥ E then .error "B는 E보다 작아야 합니다."
  else
    (compute_rubinstein_salary B E delta_E delta_R).map fun r =>
      { B := B, E := E, delta_E := delta_E, delta_R := delta_R,
        S_star := r.1, share_E := r.2.1, share_R := r.2.2,
        max_rounds := max_rounds, first_mover := first_mover,
        current_round := 1, turn := first_mover, status := .ongoing,
        last_employee_offer := none, last_employer_offer := none,
        final_salary := none }

/-- A user action on page 5: accept / reject on the firm's turn, or a
salary proposal on the worker's turn. -/
inductive Neg5Event where
  | accept
  | reject
  | propose (offer : ℚ)
  deriving Repr, DecidableEq

/-- `next_round` (src/main.py:879-882): bump the round counter; past the
budget the session fails. -/
def neg5NextRound (s : Neg5State) : Neg5State :=
  let s := { s with current_round := s.current_round + 1 }
  if s.current_round > s.max_rounds then { s with status := .failed } else s

/-- One user-driven step of the page-5 simulator (src/main.py:866-941).

* Terminal states stop the page (`st.stop()`, line 867-876): every event is
  a no-op — `Success`/`Failed` are absorbing.
* Firm turn (lines 885-906): the firm's offer is computed and stored on
  render; `accept` ends in success at that offer; `reject` calls
  `next_round` and — only when that did not fail — hands the turn to the
  worker (`st.rerun()` on failure skips the `turn` assignment).
* Worker turn (lines 909-941): the proposal is recorded; inside `[B,E]` it
  succeeds immediately (round not consumed); outside, the firm counter is
  computed and stored, `next_round` runs, and — only when that did not
  fail — the turn passes to the firm.
* Events that have no button on the rendered turn are no-ops. -/
def neg5Step (s : Neg5State) (e : Neg5Event) : Neg5State :=
  if s.status ≠ .ongoing then s
  else match s.turn, e with
    | .employer, .accept =>
        let offer := compute_employer_offer s.B s.E s.S_star s.last_employee_offer
        { s with last_employer_offer := some offer,
                 status := .success, final_salary := some offer }
    | .employer, .reject =>
        let offer := compute_employer_offer s.B s.E s.S_star s.last_employee_offer
        let s := { s with last_employer_offer := some offer }
        let s := neg5NextRound s
        if s.status = .failed then s else { s with turn := .employee }
    | .employee, .propose o =>
        let s := { s with last_employee_offer := some o }
        if s.B ≤ o ∧ o ≤ s.E then
          { s with status := .success, final_salary := some o }
        else
          let counter := compute_employer_offer s.B s.E s.S_star (some o)
          let s := { s with last_employer_offer := some counter }
          let s := neg5NextRound s
          if s.status = .failed then s else { s with turn := .employer }
    | _, _ => s

/-- The page-5 session created by `mkNeg5Session 50 80 (19/20) (9/10) 1
.employer` (`maxRounds = 1`, firm moves first): the Rubinstein share is
`v_W = (1/10)/(29/200) = 20/29` and `S_star = 50 + (20/29)·30 = 2050/29`. -/
def neg5FirmFirst : Neg5State :=
  { B := 50, E := 80, delta_E := 19 / 20, delta_R := 9 / 10,
    S_star := 2050 / 29, share_E := 20 / 29, share_R := 9 / 29,
    max_rounds := 1, first_mover := .employer,
    current_round := 1, turn := .employer, status := .ongoing,
    last_employee_offer := none, last_employer_offer := none,
    final_salary := none }

/-- The same session with the worker moving first. -/
def neg5WorkerFirst : Neg5State :=
  { neg5FirmFirst with first_mover := .employee, turn := .employee }

/-! ## RoundNegotiationEngine: `NegotiationModel` (src/main.py:29-252) -/

/-- `DEFAULT_E_BY_FIELD` (src/main.py:32-38): field → employer ceiling. -/
def DEFAULT_E_BY_FIELD : List (String × ℚ) :=
  [("it_dev", 9000), ("medical", 12000), ("driver", 6000),
   ("service", 5000), ("manufacturing", 7000)]

/-- Embedding of Python's `str.lower()` (character-wise lowercasing),
defined structurally so that concrete instances evaluate. -/
def pyLower (s : String) : String :=
  ⟨s.data.map Char.toLower⟩

/-- Embedding of Python's `str.strip()` (drop leading and trailing
whitespace), defined structurally so that concrete instances evaluate. -/
def pyStrip (s : String) : String :=
  ⟨((s.data.dropWhile (·.isWhitespace)).reverse.dropWhile (·.isWhitespace)).reverse⟩

/-- `NegotiationState` (src/main.py:41-77), field for field. -/
structure NegotiationState where
  S_target : ℚ
  B : ℚ
  E_max : ℚ
  field_name : String
  first_mover : String
  total_rounds : ℤ
  delta_E : ℚ
  delta_R : ℚ
  delta_E_hat : ℚ
  current_round : ℤ
  history_employee : List ℚ
  history_employer : List ℚ
  deriving Repr, DecidableEq

/-- `NegotiationState.remaining_rounds` (src/main.py:61-63). -/
def NegotiationState.remaining_rounds (s : NegotiationState) : ℤ :=
  max (s.total_rounds - s.current_round + 1) 0

/-- `NegotiationState.pi` (src/main.py:65-68). -/
def NegotiationState.pi (s : NegotiationState) : ℚ :=
  s.E_max - s.B

/-- Error sites of `NegotiationModel.__init__` (src/main.py:88-134) and of
`target_share` (src/main.py:70-77), one constructor per `raise`. -/
inductive NegInitError where
  /-- "first_mover must be 'employee' or 'employer'" (ValueError) -/
  | invalidFirstMover
  /-- "Unknown field '...'" (KeyError) -/
  | unknownField
  /-- "E_max must be greater than B" (ValueError, raised by `target_share`) -/
  | nonPositivePie
  /-- "S_target=... is outside feasible range [B, E_max]" (ValueError) -/
  | outOfRange
  deriving Repr, DecidableEq

/-- `NegotiationModel.__init__` (src/main.py:88-134): validate the first
mover, resolve the ceiling from the field table, build the state, and check
the target share `(S − B)/π ∈ [0,1]`; on any failure no state is kept. -/
def mkNegotiationModel (S B : ℚ) (field_name first_mover : String)
    (total_rounds : ℤ := 4) (E_table : Option (List (String × ℚ)) := none)
    (delta_E_default : ℚ := 95 / 100) (delta_R_default : ℚ := 95 / 100) :
    Except NegInitError NegotiationState :=
  let fm := pyLower first_mover
  if fm ≠ "employee" ∧ fm ≠ "employer" then .error .invalidFirstMover
  else
    let table := E_table.getD DEFAULT_E_BY_FIELD
    match table.lookup field_name with
    | none => .error .unknownField
    | some E_max =>
        let state : NegotiationState :=
          { S_target := S, B := B, E_max := E_max, field_name := field_name,
            first_mover := fm, total_rounds := total_rounds,
            delta_E := delta_E_default, delta_R := delta_R_default,
            delta_E_hat := delta_E_default,
            current_round := 1, history_employee := [], history_employer := [] }
        if state.pi ≤ 0 then .error .nonPositivePie
        else
          let x := (state.S_target - state.B) / state.pi
          if ¬ (0 ≤ x ∧ x ≤ 1) then .error .outOfRange
          else .ok state

/-- `NegotiationModel.observe_employer_offer` (src/main.py:137-159): record
the firm's offer and update the two discount-factor beliefs by EMAs
(0.3/0.7 for `delta_R`, 0.2/0.8 for `delta_E_hat`). -/
def observeEmployerOffer (s : NegotiationState) (offer : ℚ) : NegotiationState :=
  let s := { s with history_employer := s.history_employer ++ [offer] }
  let denom := max (s.S_target - s.B) (1 / 1000000000)
  let ratio_to_target := (offer - s.B) / denom
  let ratio_to_target := max 0 (min ratio_to_target (3 / 2))
  let closeness := min ratio_to_target 1
  let target_delta_R := 1 - (1 / 2) * closeness
  let s := { s with delta_R := (7 / 10) * s.delta_R + (3 / 10) * target_delta_R }
  let target_delta_E_hat := 1 - (3 / 10) * closeness
  { s with delta_E_hat := (8 / 10) * s.delta_E_hat + (2 / 10) * target_delta_E_hat }

/-- `NegotiationModel.current_player` (src/main.py:162-171): turn owner
alternates with round parity, anchored at `first_mover`. -/
def currentPlayer (s : NegotiationState) : String :=
  if s.first_mover = "employee" then
    if s.current_round % 2 = 1 then "employee" else "employer"
  else
    if s.current_round % 2 = 1 then "employer" else "employee"

/-- `NegotiationModel._suggest_employee_offer` (src/main.py:174-208): move
from the last firm offer toward the target by a clamped step ratio, then
clamp the result to `[B, E_max]`. -/
def suggestEmployeeOffer (s : NegotiationState) : ℚ :=
  let remaining := s.remaining_rounds
  if remaining ≤ 0 then s.S_target
  else
    let last_emp_offer := s.history_employer.getLast?.getD s.B
    let gap_to_target := s.S_target - last_emp_offer
    let urgency := 1 - s.delta_E
    let round_factor := 1 / (remaining : ℚ)
    let step_ratio := (1 / 2) * urgency + (1 / 2) * round_factor
    let step_ratio := max (1 / 10) (min step_ratio (9 / 10))
    let offer := last_emp_offer + step_ratio * gap_to_target
    max s.B (min offer s.E_max)

/-- `NegotiationModel.next_employee_offer` (src/main.py:211-239): optionally
observe a firm offer, advance to the worker's turn (the `while` loop runs at
most once, because the turn owner flips with every round-parity change),
fall back to the static target past the round budget, otherwise emit and
record the suggested offer and consume the round. -/
def nextEmployeeOffer (s : NegotiationState) (employer_offer : Option ℚ) :
    ℚ × NegotiationState :=
  let s := match employer_offer with
    | some o => observeEmployerOffer s o
    | none => s
  let s := if currentPlayer s ≠ "employee" ∧ s.current_round ≤ s.total_rounds then
    { s with current_round := s.current_round + 1 } else s
  if s.current_round > s.total_rounds then (s.S_target, s)
  else
    let offer := suggestEmployeeOffer s
    let s := { s with history_employee := s.history_employee ++ [offer],
                      current_round := s.current_round + 1 }
    (offer, s)

/-- Drive a `NegotiationModel` through a whole call sequence: one
`next_employee_offer` call per list entry (`some o` = a firm offer was
observed first), collecting every returned suggestion. -/
def runEmployeeOffers (s : NegotiationState) : List (Option ℚ) → List ℚ
  | [] => []
  | o :: rest =>
      let r := nextEmployeeOffer s o
      r.1 :: runEmployeeOffers r.2 rest

/-- A concrete engine session: target 4000, floor 1000, field "service"
(default ceiling 5000), worker first, four rounds, default discount 0.95 —
exactly the state built by a successful `mkNegotiationModel`. -/
def negEngineExample : NegotiationState :=
  { S_target := 4000, B := 1000, E_max := 5000, field_name := "service",
    first_mover := "employee", total_rounds := 4,
    delta_E := 95 / 100, delta_R := 95 / 100, delta_E_hat := 95 / 100,
    current_round := 1, history_employee := [], history_employer := [] }

/-! ## EquilibriumPathProjector: `SalaryBargainingGame` (src/main.py:1316-1437) -/

/-- `RoundState` (src/main.py:1316-1326): one round of the equilibrium
path; `round_index` is the offset relative to the terminal round (0 is
terminal, earlier rounds are negative). -/
structure RoundState where
  round_index : ℤ
  proposer : Actor
  W_e : ℚ
  W_r : ℚ
  deriving Repr, DecidableEq

/-- `SalaryBargainingGame`'s input parameters (src/main.py:1329-1340). -/
structure SalaryBargainingGame where
  B : ℚ
  S : ℚ
  E : ℚ
  delta_e : ℚ
  delta_r : ℚ
  first_mover : Actor
  horizon : ℕ := 3
  deriving Repr, DecidableEq

/-- `SalaryBargainingGame.__post_init__` (src/main.py:1342-1346): require
`B < S ≤ E` and both discount factors in `(0, 1]`. -/
def SalaryBargainingGame.valid (g : SalaryBargainingGame) : Prop :=
  (g.B < g.S ∧ g.S ≤ g.E) ∧
    (0 < g.delta_e ∧ g.delta_e ≤ 1 ∧ 0 < g.delta_r ∧ g.delta_r ≤ 1)

instance (g : SalaryBargainingGame) : Decidable g.valid := by
  unfold SalaryBargainingGame.valid; infer_instance

/-- `SalaryBargainingGame.pie` (src/main.py:1348-1351). -/
def SalaryBargainingGame.pie (g : SalaryBargainingGame) : ℚ :=
  g.E - g.B

/-- `SalaryBargainingGame.x_target` (src/main.py:1353-1356). -/
def SalaryBargainingGame.x_target (g : SalaryBargainingGame) : ℚ :=
  (g.S - g.B) / g.pie

/-- The backward-induction loop body of `compute_equilibrium_path`
(src/main.py:1374-1393), emitting rounds `-step` down to `-horizon` in the
source's append order (newest offset first).  `W_e`/`W_r`/`proposer` are
this (later) round's values; each earlier round is derived from them. -/
def equilibriumPathSteps (g : SalaryBargainingGame) (W_e W_r : ℚ) (proposer : Actor) :
    (step fuel : ℕ) → List RoundState
  | _, 0 => []
  | step, fuel + 1 =>
      match proposer with
      | .employee =>
          let W_r_prev := 1 - g.delta_e * W_e
          let W_e_prev := 1 - W_r_prev
          ⟨-(step : ℤ), .employer, W_e_prev, W_r_prev⟩ ::
            equilibriumPathSteps g W_e_prev W_r_prev .employer (step + 1) fuel
      | .employer =>
          let W_e_prev := 1 - g.delta_r * W_r
          let W_r_prev := 1 - W_e_prev
          ⟨-(step : ℤ), .employee, W_e_prev, W_r_prev⟩ ::
            equilibriumPathSteps g W_e_prev W_r_prev .employee (step + 1) fuel

/-- `SalaryBargainingGame.compute_equilibrium_path` (src/main.py:1358-1396):
seed the terminal round (offset 0, proposer `last_mover`, worker share
`x_target`), roll back `horizon` rounds, and sort by ascending round
offset.  The build order has strictly descending offsets 0, −1, …,
−horizon, so the ascending sort (`states.sort(key=round_index)`) is exactly
list reversal. -/
def compute_equilibrium_path (g : SalaryBargainingGame)
    (last_mover : Actor := .employee) : List RoundState :=
  let W_e := g.x_target
  let W_r := 1 - W_e
  (⟨0, last_mover, W_e, W_r⟩ :: equilibriumPathSteps g W_e W_r last_mover 1 g.horizon).reverse

/-- The code's backward recurrence between two adjacent rounds of the
ascending path (`prev` is the earlier round): keyed on the *later* round's
proposer.  When this round's proposer is the worker, the previous round's
firm share is `1 − δ_e · W_e(this)` and the previous proposer is the firm;
symmetrically with `δ_r` when this round's proposer is the firm. -/
def codeBackRel (g : SalaryBargainingGame) (prev cur : RoundState) : Prop :=
  (cur.proposer = .employee →
    prev.W_r = 1 - g.delta_e * cur.W_e ∧ prev.W_e = 1 - prev.W_r ∧
      prev.proposer = .employer) ∧
  (cur.proposer = .employer →
    prev.W_e = 1 - g.delta_r * cur.W_r ∧ prev.W_r = 1 - prev.W_e ∧
      prev.proposer = .employee)

instance (g : SalaryBargainingGame) (prev cur : RoundState) :
    Decidable (codeBackRel g prev cur) := by
  unfold codeBackRel; infer_instance

/-- The recurrence exactly as the claim words it, keyed on the *previous*
(earlier) round's proposer: "when the previous round's proposer is the
worker, firmShare_prev = 1 − δ_w × workerShare_current and
workerShare_prev = 1 − firmShare_prev, and symmetrically with δ_f when the
previous proposer is the firm". -/
def claimBackRel (g : SalaryBargainingGame) (prev cur : RoundState) : Prop :=
  (prev.proposer = .employee →
    prev.W_r = 1 - g.delta_e * cur.W_e ∧ prev.W_e = 1 - prev.W_r) ∧
  (prev.proposer = .employer →
    prev.W_e = 1 - g.delta_r * cur.W_r ∧ prev.W_r = 1 - prev.W_e)

instance (g : SalaryBargainingGame) (prev cur : RoundState) :
    Decidable (claimBackRel g prev cur) := by
  unfold claimBackRel; infer_instance

/-! ## JobChangeScorer (src/main.py:271-449) -/

/-- `INDUSTRY_GROWTH` (src/main.py:19-25): industry → annual salary growth
(service, manufacturing/chemical, retail, healthcare/pharma, IT/telecom). -/
def INDUSTRY_GROWTH : List (String × ℚ) :=
  [("서비스업", 11 / 1000), ("제조·화학업", 3 / 100), ("판매·유통업", 43 / 1000),
   ("의료·제약업", 27 / 1000), ("IT·통신업", 43 / 1000)]

/-- `get_industry_growth` (src/main.py:333-335): table lookup with a 3%
default for unknown industries. -/
def get_industry_growth (industry : String) : ℚ :=
  (INDUSTRY_GROWTH.lookup industry).getD (3 / 100)

/-- The company-metrics record consumed by the scorer.  A field is `none`
when it is absent from the provider's JSON *or* not numeric (the source
guards every read with `isinstance(x, (int, float))`). -/
structure Metrics where
  salesGrowth : Option ℚ
  assets : Option ℚ
  deriving Repr, DecidableEq

/-- The empty metrics record `{}`. -/
def Metrics.empty : Metrics := ⟨none, none⟩

/-- The provider's JSON body as read by `fetch_corp_metrics`
(src/main.py:311-322): `ok`, optional `metrics`, optional `warnings` list,
optional `error` string.  (The pass-through `debug` payload is not
modelled; no code path reads it.) -/
structure ApiData where
  ok : Bool
  metrics : Option Metrics
  warnings : List String
  error : Option String
  deriving Repr, DecidableEq

/-- Outcome of the one network interaction inside `fetch_corp_metrics`:
either `requests.get` succeeded and the response status was not OK
(src/main.py:290-298), or `requests.get`/`res.json()` raised
(src/main.py:301-309), or a JSON body was obtained. -/
inductive FetchOutcome where
  | httpFailure (status : ℕ)
  | raised (msg : String)
  | response (data : ApiData)
  deriving Repr, DecidableEq

/-- Result record of `fetch_corp_metrics` (src/main.py:271-330).  (The
pass-through `debug` dict is not modelled.) -/
structure FetchResult where
  metrics : Metrics
  warnings : List String
  ok : Bool
  error : Option String
  deriving Repr, DecidableEq

/-- `fetch_corp_metrics` (src/main.py:271-330): total — every failure mode
(blank name, HTTP failure, raised exception, `ok: false` body) is converted
into an empty-or-passed-through metrics record plus warnings; nothing
propagates as an exception. -/
def fetch_corp_metrics (name : String) (outcome : FetchOutcome) : FetchResult :=
  let corp := pyStrip name
  if corp = "" then
    { metrics := .empty, warnings := ["회사명이 입력되지 않았습니다."],
      ok := false, error := some "회사명이 비어 있습니다." }
  else
    match outcome with
    | .httpFailure status =>
        let msg := "회사 데이터 API 호출 실패 (HTTP " ++ toString status ++ ")."
        { metrics := .empty, warnings := [msg], ok := false, error := some msg }
    | .raised m =>
        let msg := "회사 데이터를 불러오는 중 오류가 발생했습니다: " ++ m
        { metrics := .empty, warnings := [msg], ok := false, error := some msg }
    | .response data =>
        let metrics := data.metrics.getD .empty
        let warnings := data.warnings.filter (· ≠ "")
        let warnings :=
          if data.ok then warnings
          else warnings ++ [data.error.getD "회사 데이터를 가져오지 못했습니다."]
        { metrics := metrics, warnings := warnings, ok := data.ok, error := data.error }

/-- `company_factor` (src/main.py:338-358): growth component `1 + sg` (the
company's sales growth when present and numeric, else the side's industry
growth) times the size component (`log10(assets)/12` when assets are
present and positive, else the neutral `1.0`).  `log10` is the
uninterpreted embedding of `math.log10`. -/
def company_factor (log10 : ℚ → ℚ) (metrics : Metrics)
    (industry_growth_fallback : ℚ) : ℚ :=
  let sg := metrics.salesGrowth.getD industry_growth_fallback
  let growth_component := 1 + sg
  let size_component :=
    match metrics.assets with
    | some a => if 0 < a then log10 a / 12 else 1
    | none => 1
  growth_component * size_component

/-- The scorer's verdict strings: "이직!" (move), "잔류!" (stay), "보류"
(hold / indifferent), "계산 불가" (indeterminate, non-finite score). -/
inductive Decision where
  | move
  | stay
  | hold
  | indeterminate
  deriving Repr, DecidableEq

/-- Error sites of `compute_job_change` (src/main.py:381-388), one
constructor per `raise`, in source order. -/
inductive JobChangeError where
  /-- "현재 직종과 이직 고려 직종을 모두 선택해야 합니다." -/
  | missingIndustry
  /-- "연차는 0 이상이어야 합니다." -/
  | negativeYears
  /-- "연봉은 0보다 커야 합니다." -/
  | nonPositiveSalary
  /-- "현재 기업과 이직 고려 기업명을 모두 입력해야 합니다." -/
  | missingCorpName
  deriving Repr, DecidableEq

/-- Result of `compute_job_change` (src/main.py:429-449); the fields the
claims are about (the formatted strings are display-only and omitted). -/
structure JobChangeResult where
  Wp : ℚ
  Wk : ℚ
  decision : Decision
  now_metrics : Metrics
  next_metrics : Metrics
  now_warnings : List String
  next_warnings : List String
  now_ok : Bool
  next_ok : Bool
  g_now_ind : ℚ
  g_next_ind : ℚ
  sp_base_now : ℚ
  sp_base_next : ℚ
  factor_now : ℚ
  factor_next : ℚ
  deriving Repr, DecidableEq

/-- `compute_job_change` (src/main.py:368-449): validate the inputs, fetch
both companies' metrics (the two network outcomes are explicit inputs),
compute the per-side base scores with each side's own industry growth rate,
multiply by the per-side company factors, and decide.  On `ℚ` every score
is finite, so the `math.isfinite` guard (line 419) is identically true and
the "계산 불가" branch is unreachable in the embedding. -/
def compute_job_change (log10 : ℚ → ℚ) (years : ℕ) (salary : ℚ)
    (current_corp next_corp current_industry target_industry : String)
    (now_outcome next_outcome : FetchOutcome) :
    Except JobChangeError JobChangeResult :=
  if current_industry = "" ∨ target_industry = "" then .error .missingIndustry
  else if (years : ℤ) < 0 then .error .negativeYears
  else if salary ≤ 0 then .error .nonPositiveSalary
  else if pyStrip current_corp = "" ∨ pyStrip next_corp = "" then .error .missingCorpName
  else
    let now_info := fetch_corp_metrics current_corp now_outcome
    let next_info := fetch_corp_metrics next_corp next_outcome
    let g_now_ind := get_industry_growth current_industry
    let g_next_ind := get_industry_growth target_industry
    let salary_scale := salary / 100000000
    let sp_base_now := salary_scale * (1 + g_now_ind) ^ years
    let sp_base_next := salary_scale * (1 + g_next_ind) ^ years
    let factor_now := company_factor log10 now_info.metrics g_now_ind
    let factor_next := company_factor log10 next_info.metrics g_next_ind
    let wp := sp_base_now * factor_now
    let wk := sp_base_next * factor_next
    let decision := if wk > wp then Decision.move
      else if wp > wk then Decision.stay else Decision.hold
    .ok { Wp := wp, Wk := wk, decision := decision,
          now_metrics := now_info.metrics, next_metrics := next_info.metrics,
          now_warnings := now_info.warnings, next_warnings := next_info.warnings,
          now_ok := now_info.ok, next_ok := next_info.ok,
          g_now_ind := g_now_ind, g_next_ind := g_next_ind,
          sp_base_now := sp_base_now, sp_base_next := sp_base_next,
          factor_now := factor_now, factor_next := factor_next }

/-! ## Theorems -/

/-- The raw (unclamped) Rubinstein worker share lies in `(0, 1]` when both
discount factors lie in `(0, 1)`; hence the safety clamp is the identity. -/
theorem rubinstein_share_unclamped (dw df : ℚ) (hw0 : 0 < dw) (hw1 : dw < 1)
    (hf0 : 0 < df) (hf1 : df < 1) :
    0 < (1 - df) / (1 - dw * df) ∧ (1 - df) / (1 - dw * df) ≤ 1 := by
  have hprod : dw * df < 1 := by nlinarith
  have hden : 0 < 1 - dw * df := by linarith
  constructor
  · exact div_pos (by linarith) hden
  · rw [div_le_one hden]
    nlinarith

/-- On valid parameters `compute_rubinstein_equilibrium` takes its success
branch, with the result record spelled out. -/
theorem rubinstein_ok (B E dw df : ℚ) (hB : 0 < B) (hBE : B < E)
    (hw0 : 0 < dw) (hw1 : dw < 1) (hf0 : 0 < df) (hf1 : df < 1) :
    compute_rubinstein_equilibrium B E dw df =
      .ok ⟨E - B, max 0 (min 1 ((1 - df) / (1 - dw * df))),
           1 - max 0 (min 1 ((1 - df) / (1 - dw * df))),
           B + max 0 (min 1 ((1 - df) / (1 - dw * df))) * (E - B),
           E - (B + max 0 (min 1 ((1 - df) / (1 - dw * df))) * (E - B))⟩ := by
  have h1 : ¬ (B ≤ 0 ∨ E ≤ 0) := by
    push_neg
    exact ⟨hB, by linarith⟩
  have h2 : ¬ (E ≤ B) := not_le.mpr hBE
  have h3 : ¬ (¬ (0 < dw ∧ dw < 1) ∨ ¬ (0 < df ∧ df < 1)) := by
    push_neg
    exact ⟨⟨hw0, hw1⟩, ⟨hf0, hf1⟩⟩
  unfold compute_rubinstein_equilibrium
  rw [if_neg h1, if_neg h2, if_neg h3]

/-- For discount factors in `(0,1)` the clamp in the Rubinstein share is
the identity. -/
theorem rubinstein_clamp_id (dw df : ℚ) (hw0 : 0 < dw) (hw1 : dw < 1)
    (hf0 : 0 < df) (hf1 : df < 1) :
    max 0 (min 1 ((1 - df) / (1 - dw * df))) = (1 - df) / (1 - dw * df) := by
  obtain ⟨hpos, hle⟩ := rubinstein_share_unclamped dw df hw0 hw1 hf0 hf1
  rw [min_eq_right hle, max_eq_right (le_of_lt hpos)]

/-- C1 (counterexample): at `B = 1`, `E = 2`, `δ_w = δ_f = 1/2` — all inside
the claim's domain — the Rubinstein calculator returns
`workerShare = 2/3 ≠ 0.5`, refuting "equal patience ⇒ equal split". -/
theorem c1_equal_deltas_counterexample :
    (0 : ℚ) < 1 ∧ (1 : ℚ) < 2 ∧ (0 : ℚ) < 1 / 2 ∧ (1 : ℚ) / 2 < 1 ∧
    compute_rubinstein_equilibrium 1 2 (1 / 2) (1 / 2) =
      .ok ⟨1, 2 / 3, 1 / 3, 5 / 3, 1 / 3⟩ ∧
    (2 / 3 : ℚ) ≠ 1 / 2 := by
  refine ⟨by norm_num, by norm_num, by norm_num, by norm_num, ?_, by norm_num⟩
  unfold compute_rubinstein_equilibrium
  norm_num [min_def, max_def]

/-- C1 (amended): with equal discount factors `δ_w = δ_f = δ ∈ (0,1)` and
`0 < B < E`, the returned worker share is `1 / (1 + δ)` — strictly above
`1/2` (first-mover advantage) and equal to `1/2` only in the limit `δ → 1`. -/
theorem c1_equal_deltas_share (B E δ : ℚ) (hB : 0 < B) (hBE : B < E)
    (hd0 : 0 < δ) (hd1 : δ < 1) :
    ∃ r, compute_rubinstein_equilibrium B E δ δ = .ok r ∧
      r.share_worker = 1 / (1 + δ) ∧ 1 / 2 < r.share_worker := by
  refine ⟨_, rubinstein_ok B E δ δ hB hBE hd0 hd1 hd0 hd1, ?_, ?_⟩ <;>
    rw [rubinstein_clamp_id δ δ hd0 hd1 hd0 hd1]
  · have hne : (1 : ℚ) - δ ≠ 0 := by linarith
    have hne2 : (1 : ℚ) + δ ≠ 0 := by linarith
    rw [show (1 : ℚ) - δ * δ = (1 - δ) * (1 + δ) by ring, ← div_div,
      div_self hne]
  · have hden : (0 : ℚ) < 1 - δ * δ := by nlinarith
    rw [lt_div_iff₀ hden]
    nlinarith

/-- C1 (witness): the amended statement at `B = 1`, `E = 2`, `δ = 1/2`. -/
theorem c1_equal_deltas_share_witness :
    ∃ r, compute_rubinstein_equilibrium 1 2 (1 / 2) (1 / 2) = .ok r ∧
      r.share_worker = 1 / (1 + 1 / 2) ∧ 1 / 2 < r.share_worker :=
  c1_equal_deltas_share 1 2 (1 / 2) (by norm_num) (by norm_num) (by norm_num)
    (by norm_num)

/-- C5: for `0 < B < E` and both discount factors in `(0,1)`, the Rubinstein
calculator succeeds with `workerShare ∈ [0, 1]` and
`equilibriumSalary ∈ [B, E]`. -/
theorem c5_rubinstein_ranges (B E dw df : ℚ) (hB : 0 < B) (hBE : B < E)
    (hw0 : 0 < dw) (hw1 : dw < 1) (hf0 : 0 < df) (hf1 : df < 1) :
    ∃ r, compute_rubinstein_equilibrium B E dw df = .ok r ∧
      0 ≤ r.share_worker ∧ r.share_worker ≤ 1 ∧
      B ≤ r.salary_worker ∧ r.salary_worker ≤ E := by
  refine ⟨_, rubinstein_ok B E dw df hB hBE hw0 hw1 hf0 hf1, ?_, ?_, ?_, ?_⟩ <;>
    dsimp only
  · exact le_max_left 0 _
  · exact max_le (by norm_num) (min_le_left 1 _)
  · have h0 : (0 : ℚ) ≤ max 0 (min 1 ((1 - df) / (1 - dw * df))) := le_max_left 0 _
    nlinarith
  · have h1 : max 0 (min 1 ((1 - df) / (1 - dw * df))) ≤ 1 :=
      max_le (by norm_num) (min_le_left 1 _)
    nlinarith

/-- C4: round-trip of the inverse solver and the Rubinstein calculator —
whenever `compute_spe_from_target S E δ_w δ_f` succeeds with floor `b.B`,
`compute_rubinstein_equilibrium b.B E δ_w δ_f` succeeds and returns
`equilibriumSalary = S` exactly (hence within the claimed 1e-6 tolerance). -/
theorem c4_spe_roundtrip (S E dw df : ℚ) (b : SpeResult)
    (h : compute_spe_from_target S E dw df = .ok b) :
    ∃ r, compute_rubinstein_equilibrium b.B E dw df = .ok r ∧
      r.salary_worker = S ∧ |r.salary_worker - S| ≤ 1 / 1000000 := by
  simp only [compute_spe_from_target] at h
  split_ifs at h with h1 h2 h3 h4 h5 h6
  rw [Except.ok.injEq] at h
  subst h
  push_neg at h1 h4 h5 h6
  obtain ⟨hS, hE⟩ := h1
  obtain ⟨hw0, hw1, hf0, hf1⟩ := h2
  set v := max 0 (min 1 ((1 - df) / (1 - dw * df))) with hv
  set B := (S - v * E) / (1 - v) with hB
  have hvne : 1 - v ≠ 0 := by
    intro hz
    rw [hz] at h3
    simp at h3
  have hBlt : B < S := h4
  have hBpos : 0 < B := h6
  have hBE : B < E := lt_of_lt_of_le hBlt h5
  have hBmul : B * (1 - v) = S - v * E := by
    rw [hB, div_mul_cancel₀ _ hvne]
  refine ⟨_, rubinstein_ok B E dw df hBpos hBE hw0 hw1 hf0 hf1, ?_, ?_⟩
  all_goals
    dsimp only
    rw [← hv]
  · linear_combination hBmul
  · have hsal : B + v * (E - B) = S := by linear_combination hBmul
    rw [hsal]
    simp

/-- C4 (witness): the round-trip at `S = 8`, `E = 10`, `δ_w = δ_f = 1/2`;
the inverse solve yields `B = 4` and the Rubinstein salary is 8 again. -/
theorem c4_spe_roundtrip_witness :
    ∃ r, compute_rubinstein_equilibrium
        (SpeResult.mk 4 10 8 (1 / 2) (1 / 2) (2 / 3) (1 / 3) 4 2 8).B 10 (1 / 2) (1 / 2) =
        .ok r ∧ r.salary_worker = 8 ∧ |r.salary_worker - 8| ≤ 1 / 1000000 :=
  c4_spe_roundtrip 8 10 (1 / 2) (1 / 2) _ (by
    unfold compute_spe_from_target
    norm_num [min_def, max_def, abs_of_pos])

/-- C5 (witness): the ranges at the spec's scenario `B = 50,000,000`,
`E = 80,000,000`, `δ_w = 0.95`, `δ_f = 0.90`. -/
theorem c5_rubinstein_ranges_witness :
    ∃ r, compute_rubinstein_equilibrium 50000000 80000000 (95 / 100) (90 / 100) =
      .ok r ∧ 0 ≤ r.share_worker ∧ r.share_worker ≤ 1 ∧
      50000000 ≤ r.salary_worker ∧ r.salary_worker ≤ 80000000 :=
  c5_rubinstein_ranges 50000000 80000000 (95 / 100) (90 / 100) (by norm_num)
    (by norm_num) (by norm_num) (by norm_num) (by norm_num) (by norm_num)

/-- C6: constructing a `NegotiationModel` with a valid first mover and a
field whose table ceiling satisfies `B < E_max`, but a target share
`(S − B)/(E_max − B)` outside `[0, 1]`, fails with the out-of-range error —
the `Except.error` result carries no `NegotiationState`, so no session is
created. -/
theorem c6_out_of_range_no_session (S B : ℚ) (fld fm : String) (rounds : ℤ)
    (table : List (String × ℚ)) (dE dR E_max : ℚ)
    (hfm : pyLower fm = "employee" ∨ pyLower fm = "employer")
    (hlook : table.lookup fld = some E_max)
    (hBE : B < E_max)
    (hout : ¬ (0 ≤ (S - B) / (E_max - B) ∧ (S - B) / (E_max - B) ≤ 1)) :
    mkNegotiationModel S B fld fm rounds (some table) dE dR = .error .outOfRange := by
  have h1 : ¬ (pyLower fm ≠ "employee" ∧ pyLower fm ≠ "employer") := by
    rcases hfm with h | h <;> simp [h]
  unfold mkNegotiationModel
  rw [if_neg h1]
  simp only [Option.getD_some, hlook]
  have hpi : ¬ (NegotiationState.pi
      { S_target := S, B := B, E_max := E_max, field_name := fld,
        first_mover := pyLower fm, total_rounds := rounds,
        delta_E := dE, delta_R := dR, delta_E_hat := dE,
        current_round := 1, history_employee := [], history_employer := [] } ≤ 0) := by
    simp only [NegotiationState.pi]
    linarith
  rw [if_neg hpi, if_pos]
  exact hout

/-- C6 (witness): field "service" resolves to the default ceiling 5000;
the target 6000 gives share `5999/4999 > 1` and construction is rejected. -/
theorem c6_out_of_range_no_session_witness :
    mkNegotiationModel 6000 1 "service" "employee" 4 (some DEFAULT_E_BY_FIELD)
      (95 / 100) (95 / 100) = .error .outOfRange :=
  c6_out_of_range_no_session 6000 1 "service" "employee" 4 DEFAULT_E_BY_FIELD
    (95 / 100) (95 / 100) 5000 (by left; decide) (by decide) (by norm_num)
    (by norm_num)

/-- Inverting a successful `mkNegotiationModel`: the constructed state
satisfies `B ≤ S_target ≤ E_max` (the target-share feasibility check). -/
theorem mkNegotiationModel_bounds (S B : ℚ) (fld fm : String) (rounds : ℤ)
    (table : Option (List (String × ℚ))) (dE dR : ℚ) (s0 : NegotiationState)
    (h : mkNegotiationModel S B fld fm rounds table dE dR = .ok s0) :
    s0.B ≤ s0.S_target ∧ s0.S_target ≤ s0.E_max := by
  simp only [mkNegotiationModel] at h
  split_ifs at h
  split at h
  · exact absurd h (by simp)
  rename_i E_max heq
  split_ifs at h with hpi hx
  rw [Except.ok.injEq] at h
  subst h
  simp only [NegotiationState.pi, not_le] at hpi hx
  obtain ⟨hx0, hx1⟩ := hx
  dsimp only at hpi hx0 hx1 ⊢
  have hmul : (S - B) / (E_max - B) * (E_max - B) = S - B :=
    div_mul_cancel₀ _ (ne_of_gt hpi)
  constructor
  · nlinarith [mul_nonneg hx0 (le_of_lt hpi)]
  · nlinarith [mul_le_of_le_one_left (le_of_lt hpi) hx1]

/-- `next_employee_offer` never changes the constant parameters
`B`, `S_target`, `E_max` of the state. -/
theorem nextEmployeeOffer_const (s : NegotiationState) (o : Option ℚ) :
    (nextEmployeeOffer s o).2.B = s.B ∧ (nextEmployeeOffer s o).2.S_target = s.S_target ∧
      (nextEmployeeOffer s o).2.E_max = s.E_max := by
  unfold nextEmployeeOffer observeEmployerOffer
  cases o <;> dsimp only <;> split_ifs <;> simp

/-- Any single `next_employee_offer` return value lies in `[B, E_max]`,
given the construction invariant `B ≤ S_target ≤ E_max`. -/
theorem nextEmployeeOffer_mem (s : NegotiationState) (o : Option ℚ)
    (hBS : s.B ≤ s.S_target) (hSE : s.S_target ≤ s.E_max) :
    s.B ≤ (nextEmployeeOffer s o).1 ∧ (nextEmployeeOffer s o).1 ≤ s.E_max := by
  have hBE : s.B ≤ s.E_max := le_trans hBS hSE
  unfold nextEmployeeOffer observeEmployerOffer suggestEmployeeOffer
  cases o <;> dsimp only <;> split_ifs <;>
    first
      | exact ⟨hBS, hSE⟩
      | exact ⟨le_max_left _ _, max_le hBE (min_le_right _ _)⟩

/-- Every offer in a whole `next_employee_offer` call sequence lies in
`[B, E_max]`, given the construction invariant. -/
theorem runEmployeeOffers_mem (offers : List (Option ℚ)) (s : NegotiationState)
    (hBS : s.B ≤ s.S_target) (hSE : s.S_target ≤ s.E_max) :
    ∀ v ∈ runEmployeeOffers s offers, s.B ≤ v ∧ v ≤ s.E_max := by
  induction offers generalizing s with
  | nil => simp [runEmployeeOffers]
  | cons o rest ih =>
      intro v hv
      rw [runEmployeeOffers] at hv
      rcases List.mem_cons.mp hv with h | h
      · subst h
        exact nextEmployeeOffer_mem s o hBS hSE
      · obtain ⟨hB, hS, hE⟩ := nextEmployeeOffer_const s o
        have hrec := ih (nextEmployeeOffer s o).2
          (by rw [hB, hS]; exact hBS) (by rw [hS, hE]; exact hSE) v h
        rw [hB, hE] at hrec
        exact hrec

/-- C10: for every successfully constructed `NegotiationModel` and every
call sequence of `next_employee_offer` (with arbitrary observed employer
offers, in or out of range), every returned value — clamped suggestion or
terminal `S_target` fallback — lies within `[B, E_max]`. -/
theorem c10_offers_within_range (S B : ℚ) (fld fm : String) (rounds : ℤ)
    (table : Option (List (String × ℚ))) (dE dR : ℚ) (s0 : NegotiationState)
    (h : mkNegotiationModel S B fld fm rounds table dE dR = .ok s0)
    (offers : List (Option ℚ)) :
    ∀ v ∈ runEmployeeOffers s0 offers, s0.B ≤ v ∧ v ≤ s0.E_max := by
  obtain ⟨h1, h2⟩ := mkNegotiationModel_bounds S B fld fm rounds table dE dR s0 h
  exact runEmployeeOffers_mem offers s0 h1 h2

/-- The concrete session `B = 50`, `E = 80`, `δ_E = 0.95`, `δ_R = 0.9`,
`maxRounds = 1`, firm first, evaluates to `neg5FirmFirst`. -/
theorem mkNeg5Session_firm_first :
    mkNeg5Session 50 80 (19 / 20) (9 / 10) 1 .employer = .ok neg5FirmFirst := by
  unfold mkNeg5Session compute_rubinstein_salary neg5FirmFirst
  norm_num [min_def, max_def, Except.map]

/-- The same session with the worker first evaluates to `neg5WorkerFirst`. -/
theorem mkNeg5Session_worker_first :
    mkNeg5Session 50 80 (19 / 20) (9 / 10) 1 .employee = .ok neg5WorkerFirst := by
  unfold mkNeg5Session compute_rubinstein_salary neg5WorkerFirst neg5FirmFirst
  norm_num [min_def, max_def, Except.map]

/-- C7: (a) in the `maxRounds = 1`, firm-first session, rejecting the firm's
sole offer makes the status `Failed`; (b) terminal states are absorbing
(irreversible); (c)(d) any reject or out-of-range counter that pushes the
round counter past the budget ends the session in `Failed`. -/
theorem c7_reject_exhausts_budget :
    (mkNeg5Session 50 80 (19 / 20) (9 / 10) 1 .employer = .ok neg5FirmFirst ∧
      (neg5Step neg5FirmFirst .reject).status = .failed) ∧
    (∀ (s : Neg5State) (e : Neg5Event), s.status ≠ .ongoing → neg5Step s e = s) ∧
    (∀ s : Neg5State, s.status = .ongoing → s.turn = .employer →
      s.max_rounds < s.current_round + 1 →
      (neg5Step s .reject).status = .failed) ∧
    (∀ (s : Neg5State) (o : ℚ), s.status = .ongoing → s.turn = .employee →
      ¬ (s.B ≤ o ∧ o ≤ s.E) → s.max_rounds < s.current_round + 1 →
      (neg5Step s (.propose o)).status = .failed) := by
  refine ⟨⟨mkNeg5Session_firm_first, ?_⟩, ?_, ?_, ?_⟩
  · simp [neg5Step, neg5NextRound, neg5FirmFirst]
  · intro s e hs
    unfold neg5Step
    rw [if_pos hs]
  · intro s hs ht hr
    obtain ⟨B, E, dE, dR, Ss, shE, shR, mr, fm, cr, tn, st, a1, a2, a3⟩ := s
    dsimp only at hs ht hr ⊢
    subst hs
    subst ht
    simp [neg5Step, neg5NextRound, hr]
  · intro s o hs ht ho hr
    obtain ⟨B, E, dE, dR, Ss, shE, shR, mr, fm, cr, tn, st, a1, a2, a3⟩ := s
    dsimp only at hs ht ho hr ⊢
    subst hs
    subst ht
    simp [neg5Step, neg5NextRound, ho, hr]

/-- C7 (witness): the absorbing and budget-exhaustion parts instantiated on
concrete sessions. -/
theorem c7_reject_exhausts_budget_witness :
    neg5Step { neg5FirmFirst with status := NegStatus.failed } Neg5Event.accept =
      { neg5FirmFirst with status := NegStatus.failed } ∧
    (neg5Step neg5FirmFirst .reject).status = .failed ∧
    (neg5Step neg5WorkerFirst (.propose 100)).status = .failed :=
  ⟨c7_reject_exhausts_budget.2.1 { neg5FirmFirst with status := NegStatus.failed }
      Neg5Event.accept (by simp [neg5FirmFirst]),
   c7_reject_exhausts_budget.2.2.1 neg5FirmFirst rfl rfl (by decide),
   c7_reject_exhausts_budget.2.2.2 neg5WorkerFirst 100 rfl rfl
      (by norm_num [neg5WorkerFirst, neg5FirmFirst]) (by decide)⟩

/-- C8 (counterexample): in the worker-first session with `maxRounds = 1`
(Ongoing, worker's turn), the out-of-range proposal 100 consumes the round
and computes a firm counter, but the session fails — the turn does *not*
pass to the firm, contradicting the claim's unconditional "passes the turn
to the firm". -/
theorem c8_budget_boundary_counterexample :
    mkNeg5Session 50 80 (19 / 20) (9 / 10) 1 .employee = .ok neg5WorkerFirst ∧
    neg5WorkerFirst.status = .ongoing ∧
    neg5WorkerFirst.turn = .employee ∧
    ¬ (neg5WorkerFirst.B ≤ 100 ∧ (100 : ℚ) ≤ neg5WorkerFirst.E) ∧
    (neg5Step neg5WorkerFirst (.propose 100)).current_round =
      neg5WorkerFirst.current_round + 1 ∧
    (neg5Step neg5WorkerFirst (.propose 100)).turn ≠ .employer ∧
    (neg5Step neg5WorkerFirst (.propose 100)).status = .failed := by
  refine ⟨mkNeg5Session_worker_first, rfl, rfl, by norm_num [neg5WorkerFirst, neg5FirmFirst],
    ?_, ?_, ?_⟩ <;>
    (norm_num [neg5Step, neg5NextRound, neg5WorkerFirst, neg5FirmFirst]; try decide)

/-- C8 (amended): on the worker's turn of an Ongoing session whose
equilibrium salary lies in `[B, E]` (true of every constructed session), an
in-range proposal succeeds immediately at that salary without consuming a
round; an out-of-range proposal stores the firm counter
`clamp(o + 0.5·(S_star − o), B, E)` and consumes one round, after which the
turn passes to the firm if the budget allows, and otherwise the session
fails. -/
theorem c8_worker_turn_step (s : Neg5State) (o : ℚ)
    (hs : s.status = .ongoing) (ht : s.turn = .employee)
    (hS1 : s.B ≤ s.S_star) (hS2 : s.S_star ≤ s.E) :
    (s.B ≤ o ∧ o ≤ s.E →
      neg5Step s (.propose o) =
        { s with last_employee_offer := some o, status := .success,
                 final_salary := some o }) ∧
    (¬ (s.B ≤ o ∧ o ≤ s.E) →
      (neg5Step s (.propose o)).last_employer_offer =
        some (max s.B (min s.E (o + (1 / 2) * (s.S_star - o)))) ∧
      (neg5Step s (.propose o)).current_round = s.current_round + 1 ∧
      (s.current_round + 1 ≤ s.max_rounds →
        (neg5Step s (.propose o)).turn = .employer ∧
        (neg5Step s (.propose o)).status = .ongoing) ∧
      (s.max_rounds < s.current_round + 1 →
        (neg5Step s (.propose o)).status = .failed)) := by
  obtain ⟨B, E, dE, dR, Ss, shE, shR, mr, fm, cr, tn, st, a1, a2, a3⟩ := s
  dsimp only at hs ht hS1 hS2 ⊢
  subst hs
  subst ht
  have hclamp : max B (min E Ss) = Ss := by
    rw [min_eq_right hS2, max_eq_right hS1]
  constructor
  · intro hin
    simp [neg5Step, hin]
  · intro hout
    refine ⟨?_, ?_, ?_, ?_⟩
    · simp [neg5Step, neg5NextRound, hout, compute_employer_offer, hclamp]
      split_ifs <;> rfl
    · simp [neg5Step, neg5NextRound, hout]
      split_ifs <;> rfl
    · intro hbudget
      have hnot : ¬ (cr + 1 > mr) := not_lt.mpr hbudget
      constructor <;> simp [neg5Step, neg5NextRound, hout, hnot]
    · intro hbudget
      simp [neg5Step, neg5NextRound, hout, hbudget]

/-- C8 (witness): the amended statement applied to a 4-round worker-first
session (budget not yet exhausted) with the out-of-range proposal 100 — the
round is consumed and the turn passes to the firm. -/
theorem c8_worker_turn_step_witness :
    (neg5Step { neg5WorkerFirst with max_rounds := 4 } (.propose 100)).turn =
      .employer ∧
    (neg5Step { neg5WorkerFirst with max_rounds := 4 } (.propose 100)).status =
      .ongoing :=
  ((c8_worker_turn_step { neg5WorkerFirst with max_rounds := 4 } 100 rfl rfl
      (by norm_num [neg5WorkerFirst, neg5FirmFirst])
      (by norm_num [neg5WorkerFirst, neg5FirmFirst])).2
    (by norm_num [neg5WorkerFirst, neg5FirmFirst])).2.2.1 (by decide)

/-- The rollback loop emits exactly `fuel` rounds. -/
theorem equilibriumPathSteps_length (g : SalaryBargainingGame) :
    ∀ (fuel step : ℕ) (We Wr : ℚ) (p : Actor),
      (equilibriumPathSteps g We Wr p step fuel).length = fuel := by
  intro fuel
  induction fuel with
  | zero => intro step We Wr p; cases p <;> rfl
  | succ n ih =>
      intro step We Wr p
      cases p <;> simp [equilibriumPathSteps, ih]

/-- The build-order list (newest offset first) is a chain for the flipped
code recurrence, with consecutive offsets. -/
theorem equilibriumPathSteps_chain (g : SalaryBargainingGame) :
    ∀ (fuel step : ℕ) (We Wr : ℚ) (p : Actor) (idx : ℤ), idx = -(step : ℤ) + 1 →
      List.Chain'
        (flip fun prev cur =>
          codeBackRel g prev cur ∧ prev.round_index + 1 = cur.round_index)
        (⟨idx, p, We, Wr⟩ :: equilibriumPathSteps g We Wr p step fuel) := by
  intro fuel
  induction fuel with
  | zero =>
      intro step We Wr p idx hidx
      cases p <;> exact List.chain'_singleton _
  | succ n ih =>
      intro step We Wr p idx hidx
      subst hidx
      cases p with
      | employee =>
          apply List.chain'_cons.mpr
          refine ⟨?_, ih (step + 1) _ _ _ (-(step : ℤ)) (by push_cast; ring)⟩
          refine ⟨⟨fun hp => ⟨rfl, rfl, rfl⟩, fun hp => ?_⟩, rfl⟩
          simp at hp
      | employer =>
          apply List.chain'_cons.mpr
          refine ⟨?_, ih (step + 1) _ _ _ (-(step : ℤ)) (by push_cast; ring)⟩
          refine ⟨⟨fun hp => ?_, fun hp => ⟨rfl, rfl, rfl⟩⟩, rfl⟩
          simp at hp

/-- C9 (counterexample): on the valid game `B = 1`, `S = 2`, `E = 3`,
`δ_e = 1/2`, `δ_r = 1/10`, horizon 1, last mover worker, the produced path
violates the claim's recurrence (keyed on the *previous* round's proposer):
the round at offset −1 has proposer firm and worker share 1/4, while the
claim's rule for a firm previous-proposer demands
`1 − δ_f·firmShare(0) = 19/20`. -/
theorem c9_recurrence_counterexample :
    (SalaryBargainingGame.mk 1 2 3 (1 / 2) (1 / 10) .employee 1).valid ∧
    compute_equilibrium_path
        (SalaryBargainingGame.mk 1 2 3 (1 / 2) (1 / 10) .employee 1) .employee =
      [⟨-1, .employer, 1 / 4, 3 / 4⟩, ⟨0, .employee, 1 / 2, 1 / 2⟩] ∧
    ¬ List.Chain'
        (claimBackRel (SalaryBargainingGame.mk 1 2 3 (1 / 2) (1 / 10) .employee 1))
        (compute_equilibrium_path
          (SalaryBargainingGame.mk 1 2 3 (1 / 2) (1 / 10) .employee 1) .employee) := by
  have hpath : compute_equilibrium_path
      (SalaryBargainingGame.mk 1 2 3 (1 / 2) (1 / 10) .employee 1) .employee =
      [⟨-1, .employer, 1 / 4, 3 / 4⟩, ⟨0, .employee, 1 / 2, 1 / 2⟩] := by
    simp only [compute_equilibrium_path, equilibriumPathSteps]
    norm_num [SalaryBargainingGame.x_target, SalaryBargainingGame.pie,
      equilibriumPathSteps]
  refine ⟨by norm_num [SalaryBargainingGame.valid], hpath, ?_⟩
  rw [hpath]
  intro hch
  obtain ⟨hrel, -⟩ := List.chain'_cons.mp hch
  obtain ⟨-, h2⟩ := hrel
  obtain ⟨hWe, -⟩ := h2 rfl
  norm_num at hWe

/-- C9 (amended): the path produced by `compute_equilibrium_path` starts
from the terminal round (offset 0, proposer = last mover, worker share =
`x_target`), is sorted by ascending round offset with consecutive offsets
(hence oldest first), has `horizon + 1` entries, and adjacent rounds obey
the backward recurrence keyed on the *current* (later) round's proposer:
when this round's proposer is the worker, the previous round's firm share
is `1 − δ_e · workerShare(this)`, its worker share the complement, and its
proposer the firm; symmetrically with `δ_r` when this round's proposer is
the firm (so proposers alternate every step). -/
theorem c9_path_backward_induction (g : SalaryBargainingGame) (last_mover : Actor) :
    List.Chain'
      (fun prev cur => codeBackRel g prev cur ∧ prev.round_index + 1 = cur.round_index)
      (compute_equilibrium_path g last_mover) ∧
    (compute_equilibrium_path g last_mover).getLast? =
      some ⟨0, last_mover, g.x_target, 1 - g.x_target⟩ ∧
    (compute_equilibrium_path g last_mover).length = g.horizon + 1 := by
  unfold compute_equilibrium_path
  refine ⟨?_, ?_, ?_⟩
  · rw [List.chain'_reverse]
    exact equilibriumPathSteps_chain g g.horizon 1 _ _ last_mover 0 (by norm_num)
  · rw [List.getLast?_reverse]
    rfl
  · rw [List.length_reverse]
    simp [equilibriumPathSteps_length]

/-- On every failure mode (blank company name, HTTP failure, raised
exception, `ok: false` body without metrics), `fetch_corp_metrics` returns
the empty metrics record, a non-empty warning list, and `ok = false`. -/
theorem fetch_corp_metrics_failure (name : String) (outcome : FetchOutcome)
    (h : pyStrip name = "" ∨ (∃ st, outcome = .httpFailure st) ∨
      (∃ m, outcome = .raised m) ∨
      (∃ d, outcome = .response d ∧ d.ok = false ∧ d.metrics = none)) :
    (fetch_corp_metrics name outcome).metrics = Metrics.empty ∧
    (fetch_corp_metrics name outcome).warnings ≠ [] ∧
    (fetch_corp_metrics name outcome).ok = false := by
  by_cases hname : pyStrip name = ""
  · unfold fetch_corp_metrics
    rw [if_pos hname]
    exact ⟨rfl, by simp, rfl⟩
  · rcases h with h | ⟨st, h⟩ | ⟨m, h⟩ | ⟨d, h, hok, hmet⟩
    · exact absurd h hname
    · subst h
      unfold fetch_corp_metrics
      rw [if_neg hname]
      exact ⟨rfl, by simp, rfl⟩
    · subst h
      unfold fetch_corp_metrics
      rw [if_neg hname]
      exact ⟨rfl, by simp, rfl⟩
    · subst h
      unfold fetch_corp_metrics
      rw [if_neg hname]
      refine ⟨?_, ?_, ?_⟩
      · dsimp only
        rw [hmet]
        rfl
      · dsimp only
        rw [hok]
        simp
      · dsimp only
        rw [hok]

/-- C2: the metrics fetch is total on every failure mode — blank company
name, HTTP failure, raised transport/JSON exception, or an `ok: false`
provider body (which per the provider interface carries no metrics) — and
yields the empty metrics record plus a non-fatal warning with `ok = false`;
the empty record makes the company factor collapse to the industry-average
growth times the neutral size component; and the scorer itself still
succeeds on such failures, using those fallback factors and carrying the
warnings. -/
theorem c2_fetch_failure_nonfatal :
    (∀ (name : String) (outcome : FetchOutcome),
      (pyStrip name = "" ∨ (∃ st, outcome = .httpFailure st) ∨
        (∃ m, outcome = .raised m) ∨
        (∃ d, outcome = .response d ∧ d.ok = false ∧ d.metrics = none)) →
      (fetch_corp_metrics name outcome).metrics = Metrics.empty ∧
      (fetch_corp_metrics name outcome).warnings ≠ [] ∧
      (fetch_corp_metrics name outcome).ok = false) ∧
    (∀ (log10 : ℚ → ℚ) (g : ℚ),
      company_factor log10 Metrics.empty g = (1 + g) * 1) ∧
    (∀ (log10 : ℚ → ℚ) (years : ℕ) (salary : ℚ)
        (ccorp ncorp cind tind : String) (oc on2 : FetchOutcome),
      0 < salary → cind ≠ "" → tind ≠ "" →
      pyStrip ccorp ≠ "" → pyStrip ncorp ≠ "" →
      ((∃ st, oc = .httpFailure st) ∨ (∃ m, oc = .raised m) ∨
        (∃ d, oc = .response d ∧ d.ok = false ∧ d.metrics = none)) →
      ((∃ st, on2 = .httpFailure st) ∨ (∃ m, on2 = .raised m) ∨
        (∃ d, on2 = .response d ∧ d.ok = false ∧ d.metrics = none)) →
      ∃ r, compute_job_change log10 years salary ccorp ncorp cind tind oc on2 = .ok r ∧
        r.factor_now = (1 + get_industry_growth cind) * 1 ∧
        r.factor_next = (1 + get_industry_growth tind) * 1 ∧
        r.now_warnings ≠ [] ∧ r.next_warnings ≠ []) := by
  refine ⟨fetch_corp_metrics_failure, fun log10 g => rfl, ?_⟩
  intro log10 years salary ccorp ncorp cind tind oc on2
    hsal hci hti hcc hnc hoc hon
  have hnow := fetch_corp_metrics_failure ccorp oc (Or.inr hoc)
  have hnext := fetch_corp_metrics_failure ncorp on2 (Or.inr hon)
  have h1 : ¬ (cind = "" ∨ tind = "") := by
    push_neg
    exact ⟨hci, hti⟩
  have h2 : ¬ ((years : ℤ) < 0) := by omega
  have h3 : ¬ (salary ≤ 0) := not_le.mpr hsal
  have h4 : ¬ (pyStrip ccorp = "" ∨ pyStrip ncorp = "") := by
    push_neg
    exact ⟨hcc, hnc⟩
  unfold compute_job_change
  rw [if_neg h1, if_neg h2, if_neg h3, if_neg h4]
  refine ⟨_, rfl, ?_, ?_, ?_, ?_⟩ <;> dsimp only
  · rw [hnow.1]
    rfl
  · rw [hnext.1]
    rfl
  · exact hnow.2.1
  · exact hnext.2.1

/-- C2 (witness): an HTTP-500 fetch for "acme" yields empty metrics, a
warning and `ok = false`; the neutral factor equals `(1 + g)·1`; and the
scorer succeeds with fallback factors when both fetches fail. -/
theorem c2_fetch_failure_nonfatal_witness :
    ((fetch_corp_metrics "acme" (.httpFailure 500)).metrics = Metrics.empty ∧
     (fetch_corp_metrics "acme" (.httpFailure 500)).warnings ≠ [] ∧
     (fetch_corp_metrics "acme" (.httpFailure 500)).ok = false) ∧
    company_factor (fun _ => 0) Metrics.empty (3 / 100) = (1 + 3 / 100) * 1 ∧
    (∃ r, compute_job_change (fun _ => 0) 2 50000000 "acme" "globex"
        "서비스업" "IT·통신업" (.httpFailure 500) (.raised "boom") = .ok r ∧
      r.factor_now = (1 + get_industry_growth "서비스업") * 1 ∧
      r.factor_next = (1 + get_industry_growth "IT·통신업") * 1 ∧
      r.now_warnings ≠ [] ∧ r.next_warnings ≠ []) :=
  ⟨c2_fetch_failure_nonfatal.1 "acme" (.httpFailure 500)
      (Or.inr (Or.inl ⟨500, rfl⟩)),
   c2_fetch_failure_nonfatal.2.1 (fun _ => 0) (3 / 100),
   c2_fetch_failure_nonfatal.2.2 (fun _ => 0) 2 50000000 "acme" "globex"
      "서비스업" "IT·통신업" (.httpFailure 500) (.raised "boom")
      (by norm_num) (by decide) (by decide) (by decide) (by decide)
      (Or.inl ⟨500, rfl⟩) (Or.inr (Or.inl ⟨"boom", rfl⟩))⟩

/-- C3: for every valid scorer input, each side's base score uses that
side's own industry growth — `spBase_now = (salary/10^8)·(1 + g_now)^years`
with the *current* industry's growth and `spBase_next` with the *target*
industry's — and `Wp`/`Wk` are those bases times the corresponding side's
company factor. -/
theorem c3_per_side_growth (log10 : ℚ → ℚ) (years : ℕ) (salary : ℚ)
    (ccorp ncorp cind tind : String) (oc on2 : FetchOutcome)
    (hsal : 0 < salary) (hci : cind ≠ "") (hti : tind ≠ "")
    (hcc : pyStrip ccorp ≠ "") (hnc : pyStrip ncorp ≠ "") :
    ∃ r, compute_job_change log10 years salary ccorp ncorp cind tind oc on2 = .ok r ∧
      r.sp_base_now = salary / 100000000 * (1 + get_industry_growth cind) ^ years ∧
      r.sp_base_next = salary / 100000000 * (1 + get_industry_growth tind) ^ years ∧
      r.Wp = r.sp_base_now *
        company_factor log10 (fetch_corp_metrics ccorp oc).metrics
          (get_industry_growth cind) ∧
      r.Wk = r.sp_base_next *
        company_factor log10 (fetch_corp_metrics ncorp on2).metrics
          (get_industry_growth tind) := by
  have h1 : ¬ (cind = "" ∨ tind = "") := by
    push_neg
    exact ⟨hci, hti⟩
  have h2 : ¬ ((years : ℤ) < 0) := by omega
  have h3 : ¬ (salary ≤ 0) := not_le.mpr hsal
  have h4 : ¬ (pyStrip ccorp = "" ∨ pyStrip ncorp = "") := by
    push_neg
    exact ⟨hcc, hnc⟩
  unfold compute_job_change
  rw [if_neg h1, if_neg h2, if_neg h3, if_neg h4]
  exact ⟨_, rfl, rfl, rfl, rfl, rfl⟩

/-- C3 (witness): the per-side formula at years = 2, salary = 50,000,000,
current industry service (growth 1.1%), target industry IT/telecom (growth
4.3%), one fetch failing and one succeeding. -/
theorem c3_per_side_growth_witness :
    ∃ r, compute_job_change (fun _ => 0) 2 50000000 "acme" "globex"
        "서비스업" "IT·통신업" (.raised "down")
        (.response ⟨true, some ⟨some (5 / 100), none⟩, [], none⟩) = .ok r ∧
      r.sp_base_now = 50000000 / 100000000 * (1 + get_industry_growth "서비스업") ^ 2 ∧
      r.sp_base_next = 50000000 / 100000000 * (1 + get_industry_growth "IT·통신업") ^ 2 ∧
      r.Wp = r.sp_base_now *
        company_factor (fun _ => 0) (fetch_corp_metrics "acme" (.raised "down")).metrics
          (get_industry_growth "서비스업") ∧
      r.Wk = r.sp_base_next *
        company_factor (fun _ => 0)
          (fetch_corp_metrics "globex"
            (.response ⟨true, some ⟨some (5 / 100), none⟩, [], none⟩)).metrics
          (get_industry_growth "IT·통신업") :=
  c3_per_side_growth (fun _ => 0) 2 50000000 "acme" "globex" "서비스업" "IT·통신업"
    (.raised "down") (.response ⟨true, some ⟨some (5 / 100), none⟩, [], none⟩)
    (by norm_num) (by decide) (by decide) (by decide) (by decide)

/-- C10 (witness): on the concrete session (target 4000, floor 1000,
ceiling 5000) fed the out-of-range employer offer 6000, the suggested
counter 5700 is clamped to the ceiling: the returned 5000 lies in
`[B, E_max] = [1000, 5000]`. -/
theorem c10_offers_within_range_witness :
    (5000 : ℚ) ∈ runEmployeeOffers negEngineExample [some 6000] ∧
    (1000 : ℚ) ≤ 5000 ∧ (5000 : ℚ) ≤ 5000 := by
  have hmem : (5000 : ℚ) ∈ runEmployeeOffers negEngineExample [some 6000] := by
    norm_num [runEmployeeOffers, nextEmployeeOffer, observeEmployerOffer,
      currentPlayer, suggestEmployeeOffer, NegotiationState.remaining_rounds,
      negEngineExample, min_def, max_def]
  refine ⟨hmem, ?_⟩
  exact c10_offers_within_range 4000 1000 "service" "employee" 4 none (95 / 100)
    (95 / 100) negEngineExample
    (by
      have hlower : pyLower "employee" = "employee" := by decide
      have hlook : List.lookup "service" DEFAULT_E_BY_FIELD = some 5000 := by decide
      unfold mkNegotiationModel negEngineExample
      rw [hlower]
      simp only [Option.getD_none, hlook]
      norm_num [NegotiationState.pi])
    [some 6000] 5000 hmem

end SalaryApp
